import Mathlib

/-!
Verification of the cost-model repository (Flared/cost-model): the cluster
registry (`pkg/cluster` style `PrometheusClusterMap`) and the generic pricing
resolver (`pkg/cloud/customprovider.go`), shallowly embedded in Lean 4.

Go strings are modelled as `List Char` on the registry side (where splitting
and concatenation must be reasoned about) and as Lean `String` on the pricing
side (where only equality and literal concatenation occur).  Go maps are
modelled as association lists with overwrite-on-insert; a `nil` map is
`Option` `none`; functions that can return a Go `error` return `Except String`
or `Option`.
-/

namespace CostModel

/-- Go strings for the registry component, as lists of characters. -/
abbrev Str := List Char

/-- Convert a Lean string literal to the `Str` model (for concrete inputs). -/
def str (s : String) : Str := s.data

/-- Association-list lookup, modelling Go `m[k]` with the `ok` flag:
`some v` when the key is present, `none` when absent. -/
def mapLookup {κ β : Type} [DecidableEq κ] : List (κ × β) → κ → Option β
  | [], _ => none
  | (k, v) :: rest, k' => if k' = k then some v else mapLookup rest k'

/-- Association-list insert, modelling Go `m[k] = v`: overwrites the existing
entry for `k` or appends a new one. -/
def mapInsert {κ β : Type} [DecidableEq κ] : List (κ × β) → κ → β → List (κ × β)
  | [], k, v => [(k, v)]
  | (k0, v0) :: rest, k, v =>
    if k = k0 then (k, v) :: rest else (k0, v0) :: mapInsert rest k v

/-- Go `strings.Split(s, sep)` for a single-character separator `c`:
splits `s` on every occurrence of `c`; always returns at least one element. -/
def goSplit (c : Char) : Str → List Str
  | [] => [[]]
  | x :: xs =>
    if x = c then [] :: goSplit c xs
    else
      match goSplit c xs with
      | [] => [[x]]
      | h :: t => (x :: h) :: t

/-- ClusterInfo value record (source `part_000`, lines 24-30). -/
structure ClusterInfo where
  ID : Str
  Name : Str
  Profile : Str
  Provider : Str
  Provisioner : Str
deriving DecidableEq, Repr

/-- Clone (source `part_000`, lines 33-45): `nil` receiver gives `nil`; a
non-nil receiver gives a fresh record with every field copied. -/
def ClusterInfo.clone : Option ClusterInfo → Option ClusterInfo
  | none => none
  | some ci =>
    some { ID := ci.ID, Name := ci.Name, Profile := ci.Profile,
           Provider := ci.Provider, Provisioner := ci.Provisioner }

/-- The registry snapshot: the `clusters` field of `PrometheusClusterMap`,
a Go map from cluster ID to `*ClusterInfo`. -/
abbrev Snapshot := List (Str × ClusterInfo)

/-- InfoFor (source `part_000`, lines 283-292): the entry's clone when the
cluster ID is present, Go `nil` (here `none`) otherwise. -/
def InfoFor (clusters : Snapshot) (clusterID : Str) : Option ClusterInfo :=
  match mapLookup clusters clusterID with
  | some info => ClusterInfo.clone (some info)
  | none => none

/-- NameFor (source `part_000`, lines 295-304): the entry's `Name` when the
cluster ID is present, the empty string otherwise.  Total: never an error. -/
def NameFor (clusters : Snapshot) (clusterID : Str) : Str :=
  match mapLookup clusters clusterID with
  | some info => info.Name
  | none => []

/-- NameIDFor (source `part_000`, lines 308-321): `"<name>/<id>"` when the
cluster is known and has a non-empty name, the bare ID otherwise.
Total: never an error. -/
def NameIDFor (clusters : Snapshot) (clusterID : Str) : Str :=
  match mapLookup clusters clusterID with
  | some info =>
    if info.Name = [] then clusterID
    else info.Name ++ '/' :: clusterID
  | none => clusterID

/-- SplitNameID (source `part_000`, lines 323-334): with no `/` present the
whole string is the id and the name is empty; otherwise `strings.Split` on
`/` and the result is `(split[1], split[0])` as `(id, name)`.  When the
string contains `/` the split has at least two elements, so the Go index
accesses are in range; `getD` supplies an unreachable default. -/
def SplitNameID (nameID : Str) : Str × Str :=
  if '/' ∈ nameID then
    let split := goSplit '/' nameID
    (split.getD 1 [], split.getD 0 [])
  else
    (nameID, [])

/-- LoadRetries (source `part_000`, line 20). -/
def LoadRetries : Nat := 6

/-- A row returned by the time-series query: `GetString` on a label either
succeeds with its value or errors when the label is absent, modelled as
`Option`.  Labels used by `loadClusters`: `id`, `name`, `clusterprofile`,
`provider`, `provisioner`. -/
structure QueryRow where
  id : Option Str
  name : Option Str
  clusterprofile : Option Str
  provider : Option Str
  provisioner : Option Str
deriving DecidableEq, Repr

/-- The row-processing loop of loadClusters (source `part_000`, lines
147-185): rows missing `id` or `name` are skipped (logged, `continue`);
otherwise `clusters[id]` is set, with the remaining fields defaulting to
the empty string when absent. -/
def loadRows : List QueryRow → Snapshot → Snapshot
  | [], clusters => clusters
  | r :: rs, clusters =>
    match r.id with
    | none => loadRows rs clusters
    | some i =>
      match r.name with
      | none => loadRows rs clusters
      | some n =>
        loadRows rs (mapInsert clusters i
          { ID := i, Name := n, Profile := r.clusterprofile.getD [],
            Provider := r.provider.getD [], Provisioner := r.provisioner.getD [] })

/-- getLocalClusterInfo (source `part_000`, lines 202-240): requires `id` and
`name` in the local provider's map, defaults the rest to empty. -/
def getLocalClusterInfo (info : List (Str × Str)) : Except String ClusterInfo :=
  match mapLookup info (str "id") with
  | none => Except.error "Local Cluster Info Missing ID"
  | some i =>
    match mapLookup info (str "name") with
    | none => Except.error "Local Cluster Info Missing Name"
    | some n =>
      Except.ok
        { ID := i, Name := n,
          Profile := (mapLookup info (str "clusterProfile")).getD [],
          Provider := (mapLookup info (str "provider")).getD [],
          Provisioner := (mapLookup info (str "provisioner")).getD [] }

/-- Modelled from the spec: `retry.Retry` (pkg/util/retry, not under src/)
executes up to `n` attempts with a fixed delay between them, returning the
first success, or the final attempt's error once every attempt has failed.
`attempt` gives each attempt's outcome; `i` is the index of the next one. -/
def retryGo {α : Type} (attempt : Nat → Except String α) : Nat → Nat → Except String α
  | _, 0 => Except.error "retry: no attempts"
  | i, Nat.succ n =>
    match attempt i with
    | Except.ok a => Except.ok a
    | Except.error e => if n = 0 then Except.error e else retryGo attempt (i + 1) n

/-- loadClusters (source `part_000`, lines 126-199): query with retry; on
retry failure propagate the error; otherwise process the rows, then insert
the local cluster identity if its ID is not already present — a failing
local lookup is logged and the map proceeds without that entry. -/
def loadClusters (queryAttempt : Nat → Except String (List QueryRow))
    (localInfo : List (Str × Str)) (localID : Str) : Except String Snapshot :=
  match retryGo queryAttempt 0 LoadRetries with
  | Except.error e => Except.error e
  | Except.ok qr =>
    let clusters := loadRows qr []
    match mapLookup clusters localID with
    | some _ => Except.ok clusters
    | none =>
      match getLocalClusterInfo localInfo with
      | Except.error _ => Except.ok clusters
      | Except.ok info => Except.ok (mapInsert clusters info.ID info)

/-- refreshClusters (source `part_000`, lines 243-253): on load error, log
and return with the snapshot untouched; on success replace the snapshot. -/
def refreshClusters (queryAttempt : Nat → Except String (List QueryRow))
    (localInfo : List (Str × Str)) (localID : Str) (clusters : Snapshot) : Snapshot :=
  match loadClusters queryAttempt localInfo localID with
  | Except.error _ => clusters
  | Except.ok updated => updated

/-- The prefix of a string strictly before the first occurrence of `c`
(the whole string when `c` does not occur). -/
def upToChar (c : Char) : Str → Str
  | [] => []
  | x :: xs => if x = c then [] else x :: upToChar c xs

/-- The configuration record backing the custom provider, with the fields
that src/pkg/cloud/customprovider.go reads (`CustomPricing` itself lives in
provider.go, outside src/; the field names are as the source uses them). -/
structure CustomPricing where
  CPU : String
  SpotCPU : String
  RAM : String
  SpotRAM : String
  GPU : String
  SpotLabel : String
  SpotLabelValue : String
  GpuLabel : String
  GpuLabelValue : String
  ZoneNetworkEgress : String
  RegionNetworkEgress : String
  InternetNetworkEgress : String
  FirstFiveForwardingRulesCost : String
  AdditionalForwardingRuleCost : String
  LBIngressDataCost : String
  Storage : String
  ClusterName : String
deriving DecidableEq, Repr

/-- NodePrice (source customprovider.go, lines 18-22); a field not assigned
by the source carries the Go zero value, the empty string. -/
structure NodePrice where
  CPU : String
  RAM : String
  GPU : String
deriving DecidableEq, Repr

/-- The mutable fields of CustomProvider (source lines 24-33) that the
pricing claims concern; a Go `nil` pricing map is `none`. -/
structure CustomProvider where
  Pricing : Option (List (String × NodePrice))
  SpotLabel : String
  SpotLabelValue : String
  GPULabel : String
  GPULabelValue : String
deriving DecidableEq, Repr

/-- customProviderKey (source lines 35-41). -/
structure customProviderKey where
  SpotLabel : String
  SpotLabelValue : String
  GPULabel : String
  GPULabelValue : String
  Labels : List (String × String)
deriving DecidableEq, Repr

/-- Features (source lines 291-296): the spot tag when the spot label's value
is non-empty and equals the configured spot value, else "default".  A Go map
read of an absent key gives the zero value "". -/
def customProviderKey.Features (cpk : customProviderKey) : String :=
  let v := (mapLookup cpk.Labels cpk.SpotLabel).getD ""
  if v ≠ "" ∧ v = cpk.SpotLabelValue then "default,spot" else "default"

/-- GPUType (source lines 280-285): the GPU label's value when present,
else the empty string. -/
def customProviderKey.GPUType (cpk : customProviderKey) : String :=
  match mapLookup cpk.Labels cpk.GPULabel with
  | some t => t
  | none => ""

/-- GetKey (source lines 184-192): builds the key from the provider's cached
labels and the node's labels. -/
def GetKey (cp : CustomProvider) (labels : List (String × String)) : customProviderKey :=
  { SpotLabel := cp.SpotLabel, SpotLabelValue := cp.SpotLabelValue,
    GPULabel := cp.GPULabel, GPULabelValue := cp.GPULabelValue, Labels := labels }

/-- The fields of the Node output that NodePricing (source lines 144-149)
assigns. -/
structure Node where
  VCPUCost : String
  RAMCost : String
  GPUCost : String
  GPU : String
deriving DecidableEq, Repr

/-- DownloadPricingData (source lines 152-182): initialize the pricing map
when nil, fetch the configuration (`fetch` stands for the outcome of
`cp.Config.GetCustomPricingData()`), and on success cache the spot/GPU label
names and write the three entries over whatever the map already holds.
Returns the updated provider and the Go error value. -/
def DownloadPricingData (fetch : Except String CustomPricing)
    (cp : CustomProvider) : CustomProvider × Option String :=
  let cp0 : CustomProvider := { cp with Pricing := some (cp.Pricing.getD []) }
  match fetch with
  | Except.error e => (cp0, some e)
  | Except.ok p =>
    ({ cp0 with
        SpotLabel := p.SpotLabel, SpotLabelValue := p.SpotLabelValue,
        GPULabel := p.GpuLabel, GPULabelValue := p.GpuLabelValue,
        Pricing := some (mapInsert (mapInsert (mapInsert (cp.Pricing.getD [])
          "default" { CPU := p.CPU, RAM := p.RAM, GPU := "" })
          "default,spot" { CPU := p.SpotCPU, RAM := p.SpotRAM, GPU := "" })
          "default,gpu" { CPU := p.CPU, RAM := p.RAM, GPU := p.GPU }) },
     none)

/-- NodePricing (source lines 130-150): take the key's feature tag, fall back
to "default" when that tag is absent from the table, then append ",gpu" when
a GPU type is present — without re-checking that the combined tag exists.
The final `cp.Pricing[k].CPU` dereferences the entry, so a missing final key
is a nil-pointer fault, modelled as `none`. -/
def NodePricing (cp : CustomProvider) (key : customProviderKey) : Option Node :=
  let pricing := cp.Pricing.getD []
  let k0 := key.Features
  let k1 := if (mapLookup pricing k0).isSome then k0 else "default"
  let gpuT := key.GPUType
  let k2 := if gpuT ≠ "" then k1 ++ ",gpu" else k1
  let gpuCount := if gpuT ≠ "" then "1" else ""
  match mapLookup pricing k2 with
  | some np =>
    some { VCPUCost := np.CPU, RAMCost := np.RAM, GPUCost := np.GPU, GPU := gpuCount }
  | none => none

/-- Go `strings.Title` as applied to the single-word configuration field
names (source line 78): uppercase the first character. -/
def goTitle (s : String) : String :=
  match s.data with
  | [] => ""
  | c :: cs => String.mk (c.toUpper :: cs)

/-- A decoded JSON value from the update request body: a string, or any
non-string value, which UpdateConfig rejects with a type error. -/
inductive JVal where
  | str (s : String)
  | other
deriving DecidableEq, Repr

/-- The configuration field names recognized by the field setter. -/
def recognizedFields : List String :=
  ["CPU", "SpotCPU", "RAM", "SpotRAM", "GPU", "SpotLabel", "SpotLabelValue",
   "GpuLabel", "GpuLabelValue", "ZoneNetworkEgress", "RegionNetworkEgress",
   "InternetNetworkEgress", "FirstFiveForwardingRulesCost",
   "AdditionalForwardingRuleCost", "LBIngressDataCost", "Storage", "ClusterName"]

/-- Modelled from the spec: `SetCustomPricingField` (provider.go, not under
src/) performs a named-field assignment against the configuration with
validation, rejecting an unrecognized field name. -/
def SetCustomPricingField (c : CustomPricing) (name val : String) :
    Except String CustomPricing :=
  if name = "CPU" then Except.ok { c with CPU := val }
  else if name = "SpotCPU" then Except.ok { c with SpotCPU := val }
  else if name = "RAM" then Except.ok { c with RAM := val }
  else if name = "SpotRAM" then Except.ok { c with SpotRAM := val }
  else if name = "GPU" then Except.ok { c with GPU := val }
  else if name = "SpotLabel" then Except.ok { c with SpotLabel := val }
  else if name = "SpotLabelValue" then Except.ok { c with SpotLabelValue := val }
  else if name = "GpuLabel" then Except.ok { c with GpuLabel := val }
  else if name = "GpuLabelValue" then Except.ok { c with GpuLabelValue := val }
  else if name = "ZoneNetworkEgress" then Except.ok { c with ZoneNetworkEgress := val }
  else if name = "RegionNetworkEgress" then Except.ok { c with RegionNetworkEgress := val }
  else if name = "InternetNetworkEgress" then Except.ok { c with InternetNetworkEgress := val }
  else if name = "FirstFiveForwardingRulesCost" then
    Except.ok { c with FirstFiveForwardingRulesCost := val }
  else if name = "AdditionalForwardingRuleCost" then
    Except.ok { c with AdditionalForwardingRuleCost := val }
  else if name = "LBIngressDataCost" then Except.ok { c with LBIngressDataCost := val }
  else if name = "Storage" then Except.ok { c with Storage := val }
  else if name = "ClusterName" then Except.ok { c with ClusterName := val }
  else Except.error ("Unknown config field: " ++ name)

/-- An update entry UpdateConfig must reject: a non-string value, or a field
name whose Title-cased form the setter does not recognize. -/
def badEntry : String × JVal → Prop
  | (_, JVal.other) => True
  | (k, JVal.str _) => goTitle k ∉ recognizedFields

/-- The update closure given to `Config.Update` (source lines 76-91): for
each decoded entry, Title-case the name; a non-string value is a type error;
a failing field assignment aborts; errors propagate immediately. -/
def applyUpdates : List (String × JVal) → CustomPricing → Except String CustomPricing
  | [], c => Except.ok c
  | (k, v) :: rest, c =>
    match v with
    | JVal.str vstr =>
      match SetCustomPricingField c (goTitle k) vstr with
      | Except.ok c1 => applyUpdates rest c1
      | Except.error e => Except.error e
    | JVal.other =>
      Except.error ("type error while updating config for " ++ goTitle k)

/-- Modelled from the spec: `ProviderConfig.Update` (not under src/) runs the
update function against the current configuration and commits the result only
when it succeeds; on error the stored configuration is unchanged
(all-or-nothing).  Returns the call's result and the stored configuration. -/
def ConfigUpdate (f : CustomPricing → Except String CustomPricing)
    (c : CustomPricing) : Except String CustomPricing × CustomPricing :=
  match f c with
  | Except.ok c1 => (Except.ok c1, c1)
  | Except.error e => (Except.error e, c)

/-- UpdateConfig (source lines 67-99) over the decoded request body
(`decoded` stands for the outcome of the JSON decode): a decode error
propagates; the configuration update is all-or-nothing; on success the
deferred DownloadPricingData rebuild runs — its own error discarded — before
the function returns.  Returns (returned config or error, provider state,
stored configuration). -/
def UpdateConfig (decoded : Except String (List (String × JVal)))
    (cp : CustomProvider) (config : CustomPricing) :
    Except String CustomPricing × CustomProvider × CustomPricing :=
  match decoded with
  | Except.error e => (Except.error e, cp, config)
  | Except.ok entries =>
    match ConfigUpdate (applyUpdates entries) config with
    | (Except.error e, config1) => (Except.error e, cp, config1)
    | (Except.ok c, config1) =>
      ((Except.ok c, (DownloadPricingData (Except.ok c) cp).1, config1))

/-- Accumulate decimal digits left to right; `none` at the first non-digit. -/
def digitsToNat : List Char → Nat → Option Nat
  | [], acc => some acc
  | c :: cs, acc =>
    if c.isDigit then digitsToNat cs (acc * 10 + (c.toNat - '0'.toNat))
    else none

/-- The character-level part of the decimal parse: accepts an optional minus
sign, integer digits, and an optional dot with fraction digits, yielding the
sign flag, the integer-part value, the fraction-part value and the number of
fraction digits; anything else fails. -/
def parseDecimal (s : String) : Option (Bool × Nat × Nat × Nat) :=
  let signed := match s.data with
    | '-' :: cs => (true, cs)
    | cs => (false, cs)
  let intPart := signed.2.takeWhile Char.isDigit
  let rest := signed.2.dropWhile Char.isDigit
  match rest with
  | [] =>
    if intPart = [] then none
    else (digitsToNat intPart 0).map (fun n => (signed.1, n, 0, 0))
  | '.' :: frac =>
    if frac = [] ∨ ¬ frac.all Char.isDigit then none
    else
      match digitsToNat intPart 0, digitsToNat frac 0 with
      | some ip, some fp => some (signed.1, ip, fp, frac.length)
      | _, _ => none
  | _ => none

/-- Go `strconv.ParseFloat` restricted to the plain decimal notation the
configured rates use; the value is kept exact as a rational instead of a
binary float. -/
def parseFloat (s : String) : Option ℚ :=
  (parseDecimal s).map (fun r =>
    let q : ℚ := (r.2.1 : ℚ) + (r.2.2.1 : ℚ) / (10 : ℚ) ^ r.2.2.2
    if r.1 then -q else q)

/-- The LoadBalancer output record (only the cost field is assigned). -/
structure LoadBalancer where
  Cost : ℚ
deriving DecidableEq, Repr

/-- The tiered total-cost computation of LoadBalancerPricing (source lines
257-265), as a function of the three parsed rates and the rule/data inputs
the source hard-codes. -/
def lbTotalCost (fffrc afrc lbidc numForwardingRules dataIngressGB : ℚ) : ℚ :=
  if numForwardingRules < 5 then
    fffrc * numForwardingRules + lbidc * dataIngressGB
  else
    fffrc * 5 + afrc * (numForwardingRules - 5) + lbidc * dataIngressGB

/-- LoadBalancerPricing (source lines 240-269): fetch the configuration and
parse the three rate fields, each parse failure aborting the computation;
the forwarding-rule count is hard-coded at 1 and the ingress data at 0. -/
def LoadBalancerPricing (fetch : Except String CustomPricing) :
    Except String LoadBalancer :=
  match fetch with
  | Except.error e => Except.error e
  | Except.ok cpricing =>
    match parseFloat cpricing.FirstFiveForwardingRulesCost with
    | none => Except.error "parse error: FirstFiveForwardingRulesCost"
    | some fffrc =>
      match parseFloat cpricing.AdditionalForwardingRuleCost with
      | none => Except.error "parse error: AdditionalForwardingRuleCost"
      | some afrc =>
        match parseFloat cpricing.LBIngressDataCost with
        | none => Except.error "parse error: LBIngressDataCost"
        | some lbidc => Except.ok { Cost := lbTotalCost fffrc afrc lbidc 1 0 }

/-- A concrete configuration used by the witnesses: the spec's example rates
and label identifiers. -/
def p0 : CustomPricing :=
  { CPU := "0.05", SpotCPU := "0.015", RAM := "0.01", SpotRAM := "0.005",
    GPU := "0.90", SpotLabel := "slabel", SpotLabelValue := "sval",
    GpuLabel := "glabel", GpuLabelValue := "gval",
    ZoneNetworkEgress := "0.01", RegionNetworkEgress := "0.02",
    InternetNetworkEgress := "0.12",
    FirstFiveForwardingRulesCost := "0.025",
    AdditionalForwardingRuleCost := "0.010", LBIngressDataCost := "0.01",
    Storage := "0.04", ClusterName := "c1" }

/-- A freshly constructed provider: nil pricing map, empty cached labels. -/
def cpEmpty : CustomProvider :=
  { Pricing := none, SpotLabel := "", SpotLabelValue := "",
    GPULabel := "", GPULabelValue := "" }

/-- The configuration after the witness update setting CPU to "9.9". -/
def cGood : CustomPricing := { p0 with CPU := "9.9" }

/-- A configuration whose first LB rate fails to parse. -/
def pBadLB : CustomPricing := { p0 with FirstFiveForwardingRulesCost := "oops" }

/-- A provider whose pricing map already holds a fourth, non-standard entry. -/
def cpLegacy : CustomProvider :=
  { Pricing := some [("legacy", { CPU := "1", RAM := "1", GPU := "" })],
    SpotLabel := "", SpotLabelValue := "", GPULabel := "", GPULabelValue := "" }

theorem goSplit_ne_nil (c : Char) (s : Str) : goSplit c s ≠ [] := by
  induction s with
  | nil => simp [goSplit]
  | cons x xs ih =>
    simp only [goSplit]
    by_cases h : x = c
    · simp [h]
    · simp only [if_neg h]
      cases hs : goSplit c xs with
      | nil => simp
      | cons a t => simp

theorem goSplit_of_not_mem (c : Char) (s : Str) (h : c ∉ s) : goSplit c s = [s] := by
  induction s with
  | nil => rfl
  | cons x xs ih =>
    have hx : ¬ x = c := fun hxc => h (hxc ▸ List.mem_cons_self x xs)
    have hxs : c ∉ xs := fun hm => h (List.mem_cons_of_mem x hm)
    simp only [goSplit, if_neg hx, ih hxs]

theorem goSplit_append_sep (c : Char) (a b : Str) (h : c ∉ a) :
    goSplit c (a ++ c :: b) = a :: goSplit c b := by
  induction a with
  | nil => simp [goSplit]
  | cons x a' ih =>
    have hx : ¬ x = c := fun hxc => h (hxc ▸ List.mem_cons_self x a')
    have ha' : c ∉ a' := fun hm => h (List.mem_cons_of_mem x hm)
    simp only [List.cons_append, goSplit, List.append_eq, if_neg hx, ih ha']

theorem goSplit_head (c : Char) (b : Str) : (goSplit c b).getD 0 [] = upToChar c b := by
  induction b with
  | nil => rfl
  | cons x xs ih =>
    simp only [goSplit, upToChar]
    by_cases h : x = c
    · simp [h]
    · simp only [if_neg h]
      cases hs : goSplit c xs with
      | nil => exact absurd hs (goSplit_ne_nil c xs)
      | cons hd t =>
        rw [hs] at ih
        simp only [List.getD_cons_zero] at ih
        simp [ih]

theorem upToChar_of_not_mem (c : Char) (l : Str) (h : c ∉ l) : upToChar c l = l := by
  induction l with
  | nil => rfl
  | cons x xs ih =>
    have hx : ¬ x = c := fun hxc => h (hxc ▸ List.mem_cons_self x xs)
    have hxs : c ∉ xs := fun hm => h (List.mem_cons_of_mem x hm)
    simp only [upToChar, if_neg hx, ih hxs]

theorem splitNameID_no_sep (s : Str) (hs : '/' ∉ s) : SplitNameID s = (s, []) := by
  simp [SplitNameID, hs]

theorem splitNameID_sep (a b : Str) (ha : '/' ∉ a) :
    SplitNameID (a ++ '/' :: b) = (upToChar '/' b, a) := by
  have hmem : '/' ∈ a ++ '/' :: b :=
    List.mem_append.mpr (Or.inr (List.mem_cons_self _ _))
  simp only [SplitNameID, if_pos hmem, goSplit_append_sep '/' a b ha,
    List.getD_cons_succ, List.getD_cons_zero]
  rw [goSplit_head]

/-- C2 (corrected): `SplitNameID` with no `/` returns the whole string as the
id with empty name; on `name ++ "/" ++ rest` (with `/`-free `name`) it returns
`name` as the name and, as the id, only the portion of `rest` before the next
`/` — not all of `rest`. -/
theorem claim_C2 :
    (∀ s : Str, '/' ∉ s → SplitNameID s = (s, [])) ∧
    (∀ a b : Str, '/' ∉ a → SplitNameID (a ++ '/' :: b) = (upToChar '/' b, a)) :=
  ⟨splitNameID_no_sep, splitNameID_sep⟩

/-- C2 witness: the theorem applied at concrete inputs. -/
theorem claim_C2_witness :
    SplitNameID (str "abc") = (str "abc", []) ∧
    SplitNameID (str "n" ++ '/' :: str "x/y") = (upToChar '/' (str "x/y"), str "n") :=
  ⟨claim_C2.1 (str "abc") (by decide), claim_C2.2 (str "n") (str "x/y") (by decide)⟩

/-- C2 counterexample: on `"a/b/c"` the code returns id `"b"` (the segment
between the first and second `/`), not `"b/c"` (everything after the first
`/`) as the claim states. -/
theorem claim_C2_counterexample :
    SplitNameID (str "a/b/c") = (str "b", str "a") ∧ str "b" ≠ str "b/c" := by
  decide

/-- C3 (corrected): `SplitNameID (NameIDFor id)` round-trips to the original
`(id, name)` pair for a registered cluster when the name contains no `/`
**and the id also contains no `/`**. -/
theorem claim_C3 (clusters : Snapshot) (cid : Str) (info : ClusterInfo)
    (hlook : mapLookup clusters cid = some info)
    (hname : '/' ∉ info.Name) (hid : '/' ∉ cid) :
    SplitNameID (NameIDFor clusters cid) = (cid, info.Name) := by
  unfold NameIDFor
  rw [hlook]
  show SplitNameID (if info.Name = [] then cid else info.Name ++ '/' :: cid) = (cid, info.Name)
  by_cases h : info.Name = []
  · rw [if_pos h, splitNameID_no_sep cid hid, h]
  · rw [if_neg h, splitNameID_sep info.Name cid hname, upToChar_of_not_mem '/' cid hid]

/-- C3 witness: round-trip on a concrete one-entry registry. -/
theorem claim_C3_witness :
    SplitNameID (NameIDFor [(str "c1", ⟨str "c1", str "prod", [], [], []⟩)] (str "c1")) =
      (str "c1", str "prod") :=
  claim_C3 [(str "c1", ⟨str "c1", str "prod", [], [], []⟩)] (str "c1")
    ⟨str "c1", str "prod", [], [], []⟩ (by decide) (by decide) (by decide)

/-- C3 counterexample: a registered cluster whose name `"n"` contains no `/`
but whose id `"a/b"` does; the round trip returns id `"a"`, not `"a/b"`. -/
theorem claim_C3_counterexample :
    SplitNameID (NameIDFor [(str "a/b", ⟨str "a/b", str "n", [], [], []⟩)] (str "a/b")) =
      (str "a", str "n") ∧ str "a" ≠ str "a/b" ∧ '/' ∉ str "n" := by
  decide

/-- C8 (confirmed): for a cluster ID absent from the snapshot, `NameFor`
returns the empty string and `NameIDFor` returns the bare ID; both functions
are total, so no error is ever produced. -/
theorem claim_C8 (clusters : Snapshot) (cid : Str)
    (h : mapLookup clusters cid = none) :
    NameFor clusters cid = [] ∧ NameIDFor clusters cid = cid := by
  unfold NameFor NameIDFor
  rw [h]
  exact ⟨rfl, rfl⟩

/-- C8 witness: an unknown id against the empty snapshot. -/
theorem claim_C8_witness :
    NameFor [] (str "nope") = [] ∧ NameIDFor [] (str "nope") = str "nope" :=
  claim_C8 [] (str "nope") rfl

/-- C10 (confirmed): `InfoFor` returns `nil` (`none`) exactly when the cluster
ID is absent; for a present ID it returns the entry's clone, which is
value-equal to the entry (a fresh copy, not an error and not an empty record). -/
theorem claim_C10 (clusters : Snapshot) (cid : Str) :
    (mapLookup clusters cid = none → InfoFor clusters cid = none) ∧
    (∀ info, mapLookup clusters cid = some info →
      InfoFor clusters cid = ClusterInfo.clone (some info) ∧
      ClusterInfo.clone (some info) = some info) := by
  constructor
  · intro h
    unfold InfoFor
    rw [h]
  · intro info h
    unfold InfoFor
    rw [h]
    exact ⟨rfl, rfl⟩

/-- C10 witness: the theorem applied to a one-entry snapshot, at the present
id and at an absent id. -/
theorem claim_C10_witness :
    InfoFor [(str "c1", ⟨str "c1", str "prod", [], [], []⟩)] (str "zz") = none ∧
    InfoFor [(str "c1", ⟨str "c1", str "prod", [], [], []⟩)] (str "c1") =
      ClusterInfo.clone (some ⟨str "c1", str "prod", [], [], []⟩) :=
  ⟨(claim_C10 [(str "c1", ⟨str "c1", str "prod", [], [], []⟩)] (str "zz")).1 (by decide),
   ((claim_C10 [(str "c1", ⟨str "c1", str "prod", [], [], []⟩)] (str "c1")).2
     ⟨str "c1", str "prod", [], [], []⟩ (by decide)).1⟩

theorem retryGo_all_fail {α : Type} (attempt : Nat → Except String α) (start n : Nat)
    (h : ∀ i, i < n → ∃ e, attempt (start + i) = Except.error e) :
    ∃ e, retryGo attempt start n = Except.error e := by
  induction n generalizing start with
  | zero => exact ⟨"retry: no attempts", rfl⟩
  | succ n ih =>
    obtain ⟨e, he⟩ := h 0 (Nat.succ_pos n)
    rw [Nat.add_zero] at he
    simp only [retryGo, he]
    by_cases hn : n = 0
    · subst hn
      exact ⟨e, by simp⟩
    · rw [if_neg hn]
      apply ih
      intro i hi
      have h' := h (i + 1) (Nat.succ_lt_succ hi)
      have harith : start + (i + 1) = start + 1 + i := by omega
      rwa [harith] at h'

/-- C5 (confirmed): if every one of the 6 retry attempts of the refresh query
fails, the refresh aborts and the snapshot after `refreshClusters` is exactly
the snapshot before it. -/
theorem claim_C5 (queryAttempt : Nat → Except String (List QueryRow))
    (localInfo : List (Str × Str)) (localID : Str) (clusters : Snapshot)
    (h : ∀ i, i < LoadRetries → ∃ e, queryAttempt i = Except.error e) :
    refreshClusters queryAttempt localInfo localID clusters = clusters := by
  obtain ⟨e, he⟩ :=
    retryGo_all_fail queryAttempt 0 LoadRetries (by simpa using h)
  unfold refreshClusters loadClusters
  rw [he]

/-- C5 witness: a backend that is down for every attempt leaves a concrete
one-entry snapshot unchanged. -/
theorem claim_C5_witness :
    refreshClusters (fun _ => Except.error "connection refused") [] (str "local")
      [(str "c1", ⟨str "c1", str "prod", [], [], []⟩)] =
      [(str "c1", ⟨str "c1", str "prod", [], [], []⟩)] :=
  claim_C5 (fun _ => Except.error "connection refused") [] (str "local")
    [(str "c1", ⟨str "c1", str "prod", [], [], []⟩)]
    (fun _ _ => ⟨"connection refused", rfl⟩)

/-- C9 (confirmed): a row missing `id` or `name` is skipped and processing
continues; a row carrying both yields an entry keyed by its id with the
optional fields defaulting to the empty string; concretely, one row missing
`id` plus one valid row produce exactly the valid entry. -/
theorem claim_C9 :
    (∀ (r : QueryRow) (rs : List QueryRow) (clusters : Snapshot),
      r.id = none ∨ r.name = none →
      loadRows (r :: rs) clusters = loadRows rs clusters) ∧
    (∀ (r : QueryRow) (rs : List QueryRow) (clusters : Snapshot) (i n : Str),
      r.id = some i → r.name = some n →
      loadRows (r :: rs) clusters = loadRows rs (mapInsert clusters i
        { ID := i, Name := n, Profile := r.clusterprofile.getD [],
          Provider := r.provider.getD [], Provisioner := r.provisioner.getD [] })) ∧
    loadRows [⟨none, some (str "n0"), none, none, none⟩,
              ⟨some (str "c1"), some (str "n1"), none, none, none⟩] [] =
      [(str "c1", ⟨str "c1", str "n1", [], [], []⟩)] := by
  refine ⟨?_, ?_, by decide⟩
  · intro r rs clusters h
    rcases h with h | h
    · simp only [loadRows, h]
    · cases hid : r.id with
      | none => simp only [loadRows, hid]
      | some i => simp only [loadRows, hid, h]
  · intro r rs clusters i n hid hname
    simp only [loadRows, hid, hname]

/-- C9 witness: the theorem applied to a concrete skipped row (missing `id`)
and a concrete valid row. -/
theorem claim_C9_witness :
    loadRows [⟨none, some (str "n0"), none, none, none⟩] [] = loadRows [] [] ∧
    loadRows [⟨some (str "c1"), some (str "n1"), none, none, none⟩] [] =
      loadRows [] (mapInsert [] (str "c1")
        { ID := str "c1", Name := str "n1", Profile := [], Provider := [],
          Provisioner := [] }) :=
  ⟨claim_C9.1 ⟨none, some (str "n0"), none, none, none⟩ [] [] (Or.inl rfl),
   claim_C9.2.1 ⟨some (str "c1"), some (str "n1"), none, none, none⟩ [] []
     (str "c1") (str "n1") rfl rfl⟩

theorem mapLookup_mapInsert_self {κ β : Type} [DecidableEq κ]
    (m : List (κ × β)) (k : κ) (v : β) :
    mapLookup (mapInsert m k v) k = some v := by
  induction m with
  | nil => simp [mapInsert, mapLookup]
  | cons kv rest ih =>
    obtain ⟨k0, v0⟩ := kv
    by_cases h : k = k0
    · simp [mapInsert, mapLookup, h]
    · simp only [mapInsert, if_neg h, mapLookup]
      exact ih

theorem mapLookup_mapInsert_ne {κ β : Type} [DecidableEq κ]
    (m : List (κ × β)) (k k' : κ) (v : β) (h : k' ≠ k) :
    mapLookup (mapInsert m k v) k' = mapLookup m k' := by
  induction m with
  | nil => simp [mapInsert, mapLookup, h]
  | cons kv rest ih =>
    obtain ⟨k0, v0⟩ := kv
    by_cases hk : k = k0
    · subst hk
      simp only [mapInsert, if_pos rfl, mapLookup, if_neg h]
    · simp only [mapInsert, if_neg hk, mapLookup]
      by_cases h0 : k' = k0
      · rw [if_pos h0, if_pos h0]
      · rw [if_neg h0, if_neg h0]
        exact ih

theorem downloadPricingData_table (p : CustomPricing) (cp : CustomProvider) :
    mapLookup (((DownloadPricingData (Except.ok p) cp).1.Pricing).getD []) "default" =
      some { CPU := p.CPU, RAM := p.RAM, GPU := "" } ∧
    mapLookup (((DownloadPricingData (Except.ok p) cp).1.Pricing).getD []) "default,spot" =
      some { CPU := p.SpotCPU, RAM := p.SpotRAM, GPU := "" } ∧
    mapLookup (((DownloadPricingData (Except.ok p) cp).1.Pricing).getD []) "default,gpu" =
      some { CPU := p.CPU, RAM := p.RAM, GPU := p.GPU } ∧
    (DownloadPricingData (Except.ok p) cp).2 = none ∧
    (∀ k, k ≠ "default" → k ≠ "default,spot" → k ≠ "default,gpu" →
      mapLookup (((DownloadPricingData (Except.ok p) cp).1.Pricing).getD []) k =
        mapLookup (cp.Pricing.getD []) k) := by
  refine ⟨?_, ?_, ?_, rfl, ?_⟩
  · show mapLookup (mapInsert (mapInsert (mapInsert (cp.Pricing.getD [])
      "default" { CPU := p.CPU, RAM := p.RAM, GPU := "" })
      "default,spot" { CPU := p.SpotCPU, RAM := p.SpotRAM, GPU := "" })
      "default,gpu" { CPU := p.CPU, RAM := p.RAM, GPU := p.GPU }) "default" = _
    rw [mapLookup_mapInsert_ne _ _ _ _ (by decide),
      mapLookup_mapInsert_ne _ _ _ _ (by decide), mapLookup_mapInsert_self]
  · show mapLookup (mapInsert (mapInsert (mapInsert (cp.Pricing.getD [])
      "default" { CPU := p.CPU, RAM := p.RAM, GPU := "" })
      "default,spot" { CPU := p.SpotCPU, RAM := p.SpotRAM, GPU := "" })
      "default,gpu" { CPU := p.CPU, RAM := p.RAM, GPU := p.GPU }) "default,spot" = _
    rw [mapLookup_mapInsert_ne _ _ _ _ (by decide), mapLookup_mapInsert_self]
  · show mapLookup (mapInsert (mapInsert (mapInsert (cp.Pricing.getD [])
      "default" { CPU := p.CPU, RAM := p.RAM, GPU := "" })
      "default,spot" { CPU := p.SpotCPU, RAM := p.SpotRAM, GPU := "" })
      "default,gpu" { CPU := p.CPU, RAM := p.RAM, GPU := p.GPU }) "default,gpu" = _
    rw [mapLookup_mapInsert_self]
  · intro k h1 h2 h3
    show mapLookup (mapInsert (mapInsert (mapInsert (cp.Pricing.getD [])
      "default" { CPU := p.CPU, RAM := p.RAM, GPU := "" })
      "default,spot" { CPU := p.SpotCPU, RAM := p.SpotRAM, GPU := "" })
      "default,gpu" { CPU := p.CPU, RAM := p.RAM, GPU := p.GPU }) k = _
    rw [mapLookup_mapInsert_ne _ _ _ _ h3, mapLookup_mapInsert_ne _ _ _ _ h2,
      mapLookup_mapInsert_ne _ _ _ _ h1]

/-- C4 (corrected): a successful DownloadPricingData call writes the three
entries "default" (base CPU/RAM), "default,spot" (spot CPU/RAM) and
"default,gpu" (base CPU/RAM plus GPU rate) — so "default" always exists
afterwards — but it does not clear other pre-existing entries, which are
retained unchanged; the table is exactly the three entries only when the
pricing map started nil or empty. -/
theorem claim_C4 (p : CustomPricing) (cp : CustomProvider) :
    mapLookup (((DownloadPricingData (Except.ok p) cp).1.Pricing).getD []) "default" =
      some { CPU := p.CPU, RAM := p.RAM, GPU := "" } ∧
    mapLookup (((DownloadPricingData (Except.ok p) cp).1.Pricing).getD []) "default,spot" =
      some { CPU := p.SpotCPU, RAM := p.SpotRAM, GPU := "" } ∧
    mapLookup (((DownloadPricingData (Except.ok p) cp).1.Pricing).getD []) "default,gpu" =
      some { CPU := p.CPU, RAM := p.RAM, GPU := p.GPU } ∧
    (DownloadPricingData (Except.ok p) cp).2 = none ∧
    (∀ k, k ≠ "default" → k ≠ "default,spot" → k ≠ "default,gpu" →
      mapLookup (((DownloadPricingData (Except.ok p) cp).1.Pricing).getD []) k =
        mapLookup (cp.Pricing.getD []) k) ∧
    (cp.Pricing.getD [] = [] →
      ∀ k, k ≠ "default" → k ≠ "default,spot" → k ≠ "default,gpu" →
      mapLookup (((DownloadPricingData (Except.ok p) cp).1.Pricing).getD []) k = none) := by
  obtain ⟨h1, h2, h3, h4, h5⟩ := downloadPricingData_table p cp
  refine ⟨h1, h2, h3, h4, h5, ?_⟩
  intro hempty k hk1 hk2 hk3
  rw [h5 k hk1 hk2 hk3, hempty]
  rfl

/-- C4 witness: the theorem at the example configuration, with the
hypothesis-bearing components instantiated at the fresh provider and the
absent key "extra". -/
theorem claim_C4_witness :
    mapLookup (((DownloadPricingData (Except.ok p0) cpEmpty).1.Pricing).getD [])
      "default" = some { CPU := p0.CPU, RAM := p0.RAM, GPU := "" } ∧
    mapLookup (((DownloadPricingData (Except.ok p0) cpEmpty).1.Pricing).getD [])
      "extra" = none :=
  ⟨(claim_C4 p0 cpEmpty).1,
   (claim_C4 p0 cpEmpty).2.2.2.2.2 rfl "extra" (by decide) (by decide) (by decide)⟩

/-- C4 counterexample: rebuilding over a table that already holds the entry
"legacy" retains that entry, so after the successful call the table does not
contain exactly the three standard entries. -/
theorem claim_C4_counterexample :
    mapLookup (((DownloadPricingData (Except.ok p0) cpLegacy).1.Pricing).getD [])
      "legacy" = some { CPU := "1", RAM := "1", GPU := "" } ∧
    (DownloadPricingData (Except.ok p0) cpLegacy).2 = none ∧
    ("legacy" : String) ≠ "default" ∧ ("legacy" : String) ≠ "default,spot" ∧
    ("legacy" : String) ≠ "default,gpu" := by
  decide

/-- C1 (confirmed): on a freshly built table, a key whose Features() is
"default,spot" and whose GPUType() is non-empty makes NodePricing append
",gpu" after base-key resolution, yielding the table key "default,spot,gpu",
which DownloadPricingData never created — the entry dereference faults
(modelled as `none`). -/
theorem claim_C1 (p : CustomPricing) (cp cp1 : CustomProvider)
    (labels : List (String × String))
    (hnil : cp.Pricing = none)
    (hdl : cp1 = (DownloadPricingData (Except.ok p) cp).1)
    (hfeat : (GetKey cp1 labels).Features = "default,spot")
    (hgpu : (GetKey cp1 labels).GPUType ≠ "") :
    NodePricing cp1 (GetKey cp1 labels) = none := by
  subst hdl
  have hpr : (((DownloadPricingData (Except.ok p) cp).1.Pricing).getD []) =
      mapInsert (mapInsert (mapInsert ([] : List (String × NodePrice))
        "default" { CPU := p.CPU, RAM := p.RAM, GPU := "" })
        "default,spot" { CPU := p.SpotCPU, RAM := p.SpotRAM, GPU := "" })
        "default,gpu" { CPU := p.CPU, RAM := p.RAM, GPU := p.GPU } := by
    show (some (mapInsert (mapInsert (mapInsert (cp.Pricing.getD []) _ _) _ _) _ _)).getD [] = _
    rw [hnil]
    rfl
  unfold NodePricing
  rw [hpr, hfeat]
  simp only [if_pos hgpu, mapInsert, mapLookup]
  simp

/-- C1 witness: the example configuration and a node labelled both spot
(matching label and value) and GPU. -/
theorem claim_C1_witness :
    NodePricing (DownloadPricingData (Except.ok p0) cpEmpty).1
      (GetKey (DownloadPricingData (Except.ok p0) cpEmpty).1
        [("slabel", "sval"), ("glabel", "nvidia")]) = none :=
  claim_C1 p0 cpEmpty _ [("slabel", "sval"), ("glabel", "nvidia")] rfl rfl
    (by decide) (by decide)

theorem setCustomPricingField_err (c : CustomPricing) (name val : String)
    (h : name ∉ recognizedFields) :
    SetCustomPricingField c name val =
      Except.error ("Unknown config field: " ++ name) := by
  simp only [recognizedFields, List.mem_cons, List.not_mem_nil, or_false, not_or] at h
  obtain ⟨h1, h2, h3, h4, h5, h6, h7, h8, h9, h10, h11, h12, h13, h14, h15, h16, h17⟩ := h
  simp only [SetCustomPricingField, if_neg h1, if_neg h2, if_neg h3, if_neg h4,
    if_neg h5, if_neg h6, if_neg h7, if_neg h8, if_neg h9, if_neg h10, if_neg h11,
    if_neg h12, if_neg h13, if_neg h14, if_neg h15, if_neg h16, if_neg h17]

theorem applyUpdates_bad : ∀ (entries : List (String × JVal)) (c : CustomPricing),
    (∃ en ∈ entries, badEntry en) → ∃ e, applyUpdates entries c = Except.error e := by
  intro entries
  induction entries with
  | nil =>
    intro c h
    obtain ⟨en, hmem, _⟩ := h
    exact absurd hmem (List.not_mem_nil en)
  | cons hd rest ih =>
    intro c h
    obtain ⟨k, v⟩ := hd
    cases v with
    | other => exact ⟨_, rfl⟩
    | str s =>
      cases hset : SetCustomPricingField c (goTitle k) s with
      | error e =>
        refine ⟨e, ?_⟩
        simp only [applyUpdates, hset]
      | ok c1 =>
        have hrest : ∃ en ∈ rest, badEntry en := by
          obtain ⟨en, hmem, hbad⟩ := h
          rcases List.mem_cons.mp hmem with heq | hmem'
          · exfalso
            subst heq
            have herr := setCustomPricingField_err c (goTitle k) s hbad
            rw [herr] at hset
            exact Except.noConfusion hset
          · exact ⟨en, hmem', hbad⟩
        obtain ⟨e, he⟩ := ih c1 hrest
        refine ⟨e, ?_⟩
        simp only [applyUpdates, hset, he]

theorem updateConfig_ok_eq (entries : List (String × JVal)) (cp : CustomProvider)
    (config : CustomPricing) :
    UpdateConfig (Except.ok entries) cp config =
      match applyUpdates entries config with
      | Except.error e => (Except.error e, cp, config)
      | Except.ok c => (Except.ok c, (DownloadPricingData (Except.ok c) cp).1, c) := by
  cases h : applyUpdates entries config with
  | error e => simp [UpdateConfig, ConfigUpdate, h]
  | ok c => simp [UpdateConfig, ConfigUpdate, h]

theorem loadBalancerPricing_ok_eq (p : CustomPricing) :
    LoadBalancerPricing (Except.ok p) =
      match parseFloat p.FirstFiveForwardingRulesCost with
      | none => Except.error "parse error: FirstFiveForwardingRulesCost"
      | some fffrc =>
        match parseFloat p.AdditionalForwardingRuleCost with
        | none => Except.error "parse error: AdditionalForwardingRuleCost"
        | some afrc =>
          match parseFloat p.LBIngressDataCost with
          | none => Except.error "parse error: LBIngressDataCost"
          | some lbidc => Except.ok { Cost := lbTotalCost fffrc afrc lbidc 1 0 } := rfl

/-- C6 (confirmed): an update containing any entry with a non-string value or
an unrecognized field name makes UpdateConfig return an error with the
provider state and stored configuration untouched (all-or-nothing); a
successful UpdateConfig has already run the DownloadPricingData rebuild
before returning, so the returned provider's table carries the three entries
of the new configuration. -/
theorem claim_C6 :
    (∀ (entries : List (String × JVal)) (cp : CustomProvider) (config : CustomPricing),
      (∃ en ∈ entries, badEntry en) →
      ∃ e, UpdateConfig (Except.ok entries) cp config = (Except.error e, cp, config)) ∧
    (∀ (entries : List (String × JVal)) (cp : CustomProvider)
      (config c : CustomPricing) (cp1 : CustomProvider) (config1 : CustomPricing),
      UpdateConfig (Except.ok entries) cp config = (Except.ok c, cp1, config1) →
      config1 = c ∧ cp1 = (DownloadPricingData (Except.ok c) cp).1 ∧
      mapLookup ((cp1.Pricing).getD []) "default" =
        some { CPU := c.CPU, RAM := c.RAM, GPU := "" } ∧
      mapLookup ((cp1.Pricing).getD []) "default,spot" =
        some { CPU := c.SpotCPU, RAM := c.SpotRAM, GPU := "" } ∧
      mapLookup ((cp1.Pricing).getD []) "default,gpu" =
        some { CPU := c.CPU, RAM := c.RAM, GPU := c.GPU }) := by
  constructor
  · intro entries cp config h
    obtain ⟨e, he⟩ := applyUpdates_bad entries config h
    exact ⟨e, by simp only [UpdateConfig, ConfigUpdate, he]⟩
  · intro entries cp config c cp1 config1 h
    rw [updateConfig_ok_eq] at h
    cases happ : applyUpdates entries config with
    | error e =>
      rw [happ] at h
      simp at h
    | ok c2 =>
      rw [happ] at h
      simp only [Prod.mk.injEq, Except.ok.injEq] at h
      obtain ⟨hc, hcp, hcfg⟩ := h
      subst hc
      obtain ⟨t1, t2, t3, _, _⟩ := downloadPricingData_table c2 cp
      rw [← hcp]
      exact ⟨hcfg.symm, rfl, t1, t2, t3⟩

/-- C6 witness: a single non-string entry is rejected with no state change; a
single recognized entry ("cPU", Title-cased to "CPU") succeeds and the table
already shows the new CPU rate. -/
theorem claim_C6_witness :
    (∃ e, UpdateConfig (Except.ok [("cPU", JVal.other)]) cpEmpty p0 =
      (Except.error e, cpEmpty, p0)) ∧
    mapLookup ((((DownloadPricingData (Except.ok cGood) cpEmpty).1).Pricing).getD [])
      "default" = some { CPU := cGood.CPU, RAM := cGood.RAM, GPU := "" } :=
  ⟨claim_C6.1 [("cPU", JVal.other)] cpEmpty p0
      ⟨("cPU", JVal.other), List.mem_singleton_self _, True.intro⟩,
   (claim_C6.2 [("cPU", JVal.str "9.9")] cpEmpty p0 cGood
      ((DownloadPricingData (Except.ok cGood) cpEmpty).1) cGood rfl).2.2.1⟩

/-- C7 (confirmed): the load-balancer computation is the tiered formula
`rate1 * min(rules,5) + rate2 * max(rules-5,0) + ingressRate * dataGB`; with
the hard-coded rules = 1 and dataGB = 0 a successful parse returns exactly
the first-five-rule rate — concretely 0.025 for the example rates — and a
parse failure on any of the three rate fields makes the whole computation
return an error. -/
theorem claim_C7 :
    (∀ fffrc afrc lbidc rules data : ℚ,
      lbTotalCost fffrc afrc lbidc rules data =
        fffrc * min rules 5 + afrc * max (rules - 5) 0 + lbidc * data) ∧
    (∀ (p : CustomPricing) (r1 a l : ℚ),
      parseFloat p.FirstFiveForwardingRulesCost = some r1 →
      parseFloat p.AdditionalForwardingRuleCost = some a →
      parseFloat p.LBIngressDataCost = some l →
      LoadBalancerPricing (Except.ok p) = Except.ok { Cost := r1 }) ∧
    (∀ p : CustomPricing,
      (parseFloat p.FirstFiveForwardingRulesCost = none ∨
       parseFloat p.AdditionalForwardingRuleCost = none ∨
       parseFloat p.LBIngressDataCost = none) →
      ∃ e, LoadBalancerPricing (Except.ok p) = Except.error e) ∧
    LoadBalancerPricing (Except.ok p0) = Except.ok { Cost := (0.025 : ℚ) } := by
  have hform : ∀ fffrc afrc lbidc rules data : ℚ,
      lbTotalCost fffrc afrc lbidc rules data =
        fffrc * min rules 5 + afrc * max (rules - 5) 0 + lbidc * data := by
    intro f a l rules data
    unfold lbTotalCost
    by_cases h : rules < 5
    · rw [if_pos h, min_eq_left (le_of_lt h), max_eq_right (by linarith)]
      ring
    · rw [if_neg h, min_eq_right (le_of_not_lt h), max_eq_left (by linarith [le_of_not_lt h])]
  have hok : ∀ (p : CustomPricing) (r1 a l : ℚ),
      parseFloat p.FirstFiveForwardingRulesCost = some r1 →
      parseFloat p.AdditionalForwardingRuleCost = some a →
      parseFloat p.LBIngressDataCost = some l →
      LoadBalancerPricing (Except.ok p) = Except.ok { Cost := r1 } := by
    intro p r1 a l h1 h2 h3
    have hlb : lbTotalCost r1 a l 1 0 = r1 := by
      unfold lbTotalCost
      rw [if_pos (by norm_num : (1 : ℚ) < 5)]
      ring
    rw [loadBalancerPricing_ok_eq]
    simp only [h1, h2, h3, hlb]
  refine ⟨hform, hok, ?_, ?_⟩
  · intro p h
    rw [loadBalancerPricing_ok_eq]
    rcases h with h | h | h
    · rw [h]
      exact ⟨_, rfl⟩
    · cases h1 : parseFloat p.FirstFiveForwardingRulesCost with
      | none => exact ⟨_, rfl⟩
      | some f =>
        rw [h]
        exact ⟨_, rfl⟩
    · cases h1 : parseFloat p.FirstFiveForwardingRulesCost with
      | none => exact ⟨_, rfl⟩
      | some f =>
        cases h2 : parseFloat p.AdditionalForwardingRuleCost with
        | none => exact ⟨_, rfl⟩
        | some a =>
          rw [h]
          exact ⟨_, rfl⟩
  · have h1 : parseFloat p0.FirstFiveForwardingRulesCost = some (1/40 : ℚ) := by
      unfold parseFloat
      rw [show parseDecimal p0.FirstFiveForwardingRulesCost =
        some (false, 0, 25, 3) from rfl]
      simp
      norm_num
    have h2 : parseFloat p0.AdditionalForwardingRuleCost = some (1/100 : ℚ) := by
      unfold parseFloat
      rw [show parseDecimal p0.AdditionalForwardingRuleCost =
        some (false, 0, 10, 3) from rfl]
      simp
      norm_num
    have h3 : parseFloat p0.LBIngressDataCost = some (1/100 : ℚ) := by
      unfold parseFloat
      rw [show parseDecimal p0.LBIngressDataCost =
        some (false, 0, 1, 2) from rfl]
      simp
      norm_num
    rw [hok p0 (1/40) (1/100) (1/100) h1 h2 h3]
    norm_num

/-- C7 witness: the formula at 7 rules, the successful-parse component at the
example configuration, and the parse-failure component at a configuration
whose first rate is not numeric. -/
theorem claim_C7_witness :
    lbTotalCost (1/40) (1/100) (1/100) 7 0 =
      (1/40 : ℚ) * min (7 : ℚ) 5 + (1/100 : ℚ) * max ((7 : ℚ) - 5) 0 +
        (1/100 : ℚ) * 0 ∧
    LoadBalancerPricing (Except.ok pBadLB) =
      Except.error "parse error: FirstFiveForwardingRulesCost" ∧
    (∃ e, LoadBalancerPricing (Except.ok pBadLB) = Except.error e) :=
  ⟨claim_C7.1 (1/40) (1/100) (1/100) 7 0,
   rfl,
   claim_C7.2.2.1 pBadLB (Or.inl rfl)⟩

end CostModel
